import Mathlib

/-!
Verification development for the affs-read crate: a shallow embedding of its
block decoding, checksum, name hashing, directory iteration, file reading and
block-size probing logic, with theorems about the properties claimed for them.

Byte buffers are modelled as functions from byte index to byte value; every
read applies a mod-256 reduction, matching the u8 element type of the Rust
buffers.  32-bit machine arithmetic is modelled on Nat with explicit mod 2^32
reductions at the points where the Rust code uses wrapping operations.
-/

set_option maxRecDepth 100000

/-- Byte buffer: index to byte value. Rust fixed arrays such as [u8; 512]. -/
def Buf : Type := Nat → Nat

/-- Block device: block number to optional 512-byte block, none = read failure.
Models the BlockDevice and SectorDevice traits of types.rs. -/
def Device : Type := Nat → Option Buf

/-- Big-endian u32 read, from checksum.rs read_u32_be / read_u32_be_slice. -/
def readU32 (buf : Buf) (off : Nat) : Nat :=
  (buf off % 256) * 16777216 + (buf (off + 1) % 256) * 65536 +
    (buf (off + 2) % 256) * 256 + (buf (off + 3) % 256)

/-- Big-endian i32 read, from checksum.rs read_i32_be / read_i32_be_slice. -/
def readI32 (buf : Buf) (off : Nat) : Int :=
  let u := readU32 buf off
  if u < 2147483648 then (u : Int) else (u : Int) - 4294967296

/-- Write a u32 value big-endian at a byte offset, leaving other bytes alone. -/
def writeU32 (buf : Buf) (off v : Nat) : Buf :=
  fun k =>
    if k = off then v / 16777216 % 256
    else if k = off + 1 then v / 65536 % 256
    else if k = off + 2 then v / 256 % 256
    else if k = off + 3 then v % 256
    else buf k

/-- Loop of normal_sum_slice_scalar from checksum.rs: starting at word index i,
n words remaining, accumulator s; a word equal to the checksum word index cw is
skipped, others are added with u32 wrapping. -/
def sumWords (buf : Buf) (cw : Nat) : Nat → Nat → Nat → Nat
  | _, 0, s => s
  | i, n + 1, s =>
    sumWords buf cw (i + 1) n
      (if i = cw then s else (s + readU32 buf (4 * i)) % 4294967296)

/-- Scalar normal checksum over a len-byte buffer, from checksum.rs
normal_sum_slice_scalar: sum all big-endian words except the checksum word,
then return the two's-complement negation as u32. -/
def normal_sum_slice_scalar (buf : Buf) (len checksumOffset : Nat) : Nat :=
  (4294967296 - sumWords buf (checksumOffset / 4) 0 (len / 4) 0) % 4294967296

/-- Fixed 512-byte block normal checksum, from checksum.rs normal_sum. -/
def normal_sum (buf : Buf) (checksumOffset : Nat) : Nat :=
  normal_sum_slice_scalar buf 512 checksumOffset

/-- Plain (unwrapped) total of the non-checksum words: the mathematical sum the
scalar loop accumulates mod 2^32. -/
def wordTotal (buf : Buf) (cw : Nat) : Nat → Nat → Nat
  | _, 0 => 0
  | i, n + 1 =>
    (if i = cw then 0 else readU32 buf (4 * i)) + wordTotal buf cw (i + 1) n

/-- One's-complement accumulate step of boot_sum_scalar in checksum.rs: wrap
add, then add 1 when the 32-bit addition wrapped. -/
def addc (s d : Nat) : Nat :=
  if (s + d) % 4294967296 < s then ((s + d) % 4294967296 + 1) % 4294967296
  else (s + d) % 4294967296

/-- Bitwise complement of a u32 value. -/
def complU32 (s : Nat) : Nat := 4294967295 - s % 4294967296

/-- Loop of boot_sum_scalar in checksum.rs: n words starting at word index i,
word index 1 is skipped, others accumulated with addc. -/
def bootScalarLoop (buf : Buf) : Nat → Nat → Nat → Nat
  | _, 0, s => s
  | i, n + 1, s =>
    bootScalarLoop buf (i + 1) n (if i = 1 then s else addc s (readU32 buf (4 * i)))

/-- Scalar boot block checksum, from checksum.rs boot_sum_scalar. -/
def boot_sum_scalar (buf : Buf) : Nat :=
  complU32 (bootScalarLoop buf 0 256 0)

/-- Conditional accumulate of a SIMD lane in boot_sum_simd: zero lanes are
skipped, other lanes added with addc. -/
def condAdd (s d : Nat) : Nat := if d ≠ 0 then addc s d else s

/-- Lane contents of one SIMD chunk of boot_sum_simd starting at word index i:
a full chunk loads four consecutive words, the final partial chunk fills the
remaining words and leaves the other lanes zero. -/
def bootLanes (buf : Buf) (i : Nat) : Nat → Nat :=
  if i + 3 < 256 then fun j => readU32 buf (4 * (i + j))
  else fun j => if j < min (256 - i) 4 then readU32 buf (4 * (i + j)) else 0

/-- Processing of one SIMD chunk of boot_sum_simd: its four lanes are
accumulated in order, skipping zero lanes. -/
def bootSimdChunk (buf : Buf) (i s : Nat) : Nat :=
  condAdd (condAdd (condAdd (condAdd s (bootLanes buf i 0)) (bootLanes buf i 1))
    (bootLanes buf i 2)) (bootLanes buf i 3)

/-- Chunk loop of boot_sum_simd: n chunks of four words, starting at word i. -/
def bootSimdChunks (buf : Buf) : Nat → Nat → Nat → Nat
  | _, s, 0 => s
  | i, s, n + 1 => bootSimdChunks buf (i + 4) (bootSimdChunk buf i s) n

/-- SIMD boot block checksum, from checksum.rs boot_sum_simd: process word 0,
then words 2..255 in chunks of four (skipping word 1), complement at the end.
The 2..256 range stepped by 4 yields the 64 chunk starts 2, 6, ..., 254. -/
def boot_sum_simd (buf : Buf) : Nat :=
  complU32 (bootSimdChunks buf 2 (addc 0 (readU32 buf 0)) 64)

/-- Specification form of the boot checksum, following the spec text: iterate
over all 256 big-endian words, skip index 1, accumulate with one's-complement
addition, return the bitwise complement of the final sum. -/
def bootSumSpec (buf : Buf) : Nat :=
  complU32 ((List.range 256).foldl
    (fun s i => if i = 1 then s else addc s (readU32 buf (4 * i))) 0)

/-- Plain sequential addc-accumulation over a word segment with no skipping. -/
def bootSeg (buf : Buf) : Nat → Nat → Nat → Nat
  | _, 0, s => s
  | i, n + 1, s => bootSeg buf (i + 1) n (addc s (readU32 buf (4 * i)))

/-- Error kinds from error.rs AffsError. -/
inductive AffsError where
  | blockReadError
  | invalidDosType
  | invalidBlockType
  | invalidSecType
  | checksumMismatch
  | blockOutOfRange
  | entryNotFound
  | nameTooLong
  | invalidState
  | endOfFile
  | notAFile
  | notADirectory
  | bufferTooSmall
  | invalidDataSequence
  | notASymlink
  | symlinkTooLong
  deriving DecidableEq, Repr

/-- Filesystem type from types.rs FsType. -/
inductive FsType where
  | Ofs
  | Ffs
  deriving DecidableEq, Repr

/-- Entry types from types.rs EntryType. -/
inductive EntryType where
  | Root
  | Dir
  | File
  | HardLinkFile
  | HardLinkDir
  | SoftLink
  deriving DecidableEq, Repr

/-- Decode a secondary type tag, from types.rs EntryType.from_sec_type:
ST_ROOT = 1, ST_DIR = 2, ST_LSOFT = 3, ST_LDIR = 4, ST_FILE = -3, ST_LFILE = -4. -/
def EntryType.from_sec_type (sec_type : Int) : Option EntryType :=
  if sec_type = 1 then some .Root
  else if sec_type = 2 then some .Dir
  else if sec_type = -3 then some .File
  else if sec_type = -4 then some .HardLinkFile
  else if sec_type = 4 then some .HardLinkDir
  else if sec_type = 3 then some .SoftLink
  else none

/-- Amiga date triple from date.rs AmigaDate: days, minutes, ticks. -/
structure AmigaDate where
  days : Int
  mins : Int
  ticks : Int
  deriving DecidableEq, Repr

/-- ASCII uppercase fold from block.rs ascii_to_upper: in the ASCII range a
lowercase letter has bit 5 cleared (c - 32), other ASCII bytes and all
non-ASCII bytes pass through. -/
def ascii_to_upper (c : Nat) : Nat :=
  if c % 256 < 128 then
    if 97 ≤ c % 256 ∧ c % 256 ≤ 122 then c % 256 - 32 else c % 256
  else c % 256

/-- International uppercase fold from block.rs intl_to_upper: ASCII lowercase
and Latin-1 bytes 224..254 except 247 map to their value minus 32. -/
def intl_to_upper (c : Nat) : Nat :=
  if (97 ≤ c % 256 ∧ c % 256 ≤ 122) ∨
      (224 ≤ c % 256 ∧ c % 256 ≤ 254 ∧ c % 256 ≠ 247) then c % 256 - 32
  else c % 256

/-- Case fold selected by the international flag, as used in hash_name. -/
def foldByte (intl : Bool) (c : Nat) : Nat :=
  if intl then intl_to_upper c else ascii_to_upper c

/-- Loop of hash_name from block.rs: u32 accumulator, wrapping multiply by 13,
wrapping add of the folded byte, mask with 0x7FF. -/
def hashLoop (intl : Bool) : List Nat → Nat → Nat
  | [], h => h
  | c :: cs, h => hashLoop intl cs ((h * 13 % 4294967296 + foldByte intl c) % 4294967296 % 2048)

/-- Name hash from block.rs hash_name: start from the name length cast to u32,
fold each byte through the loop, reduce modulo the hash table size 72. -/
def hash_name (name : List Nat) (intl : Bool) : Nat :=
  hashLoop intl name (name.length % 4294967296) % 72

/-- Specification form of the name hash, following the spec text: hash starts
as the length, each byte is case folded and combined as hash * 13 + byte
masked to 11 bits, and the bucket is the final hash mod 72. -/
def hashNameSpec (name : List Nat) (intl : Bool) : Nat :=
  (name.foldl (fun h c => (h * 13 + foldByte intl c) % 2048) name.length) % 72

/-- Name equality from block.rs names_equal: false on length mismatch, true
for two empty names, otherwise bytewise equality after case folding. -/
def names_equal (a b : List Nat) (intl : Bool) : Bool :=
  if a.length ≠ b.length then false
  else if a.isEmpty then true
  else (a.zip b).all fun p => foldByte intl p.1 = foldByte intl p.2

/-- Boot checksum entry point of checksum.rs boot_sum (default, non-SIMD
build dispatches to the scalar implementation). -/
def boot_sum (buf : Buf) : Nat := boot_sum_scalar buf

/-- Filesystem flag bits from types.rs FsFlags: DOSFS_INTL = 2, DOSFS_DIRCACHE = 4. -/
structure FsFlags where
  intl : Bool
  dircache : Bool
  deriving DecidableEq, Repr

/-- Decode the flags from the dosType byte, from types.rs FsFlags.from_dos_type. -/
def FsFlags.from_dos_type (b : Nat) : FsFlags :=
  { intl := b / 2 % 2 = 1, dircache := b / 4 % 2 = 1 }

/-- Parsed boot block from block.rs BootBlock. -/
structure BootBlock where
  dos_type : List Nat
  checksum : Nat
  root_block : Nat
  deriving DecidableEq, Repr

/-- Boot block parse from block.rs BootBlock.parse: DOS signature in the first
three bytes, then boot checksum validation only when boot code is present
(byte 12 nonzero). -/
def BootBlock.parse (buf : Buf) : Except AffsError BootBlock :=
  if ¬(buf 0 % 256 = 68 ∧ buf 1 % 256 = 79 ∧ buf 2 % 256 = 83) then .error .invalidDosType
  else if buf 12 % 256 ≠ 0 ∧ readU32 buf 4 ≠ boot_sum buf then .error .checksumMismatch
  else .ok {
    dos_type := [buf 0 % 256, buf 1 % 256, buf 2 % 256, buf 3 % 256]
    checksum := readU32 buf 4
    root_block := readU32 buf 8 }

/-- Filesystem type of a boot block, from block.rs BootBlock.fs_type:
dosType byte 3 has the DOSFS_FFS bit (value 1). -/
def BootBlock.fs_type (b : BootBlock) : FsType :=
  if b.dos_type.getD 3 0 % 2 = 1 then .Ffs else .Ofs

/-- Filesystem flags of a boot block, from block.rs BootBlock.fs_flags. -/
def BootBlock.fs_flags (b : BootBlock) : FsFlags :=
  FsFlags.from_dos_type (b.dos_type.getD 3 0)

/-- Parsed root block from block.rs RootBlock. -/
structure RootBlock where
  block_type : Int
  hash_table_size : Int
  checksum : Nat
  hash_table : List Nat
  bm_flag : Int
  bm_pages : List Nat
  bm_ext : Nat
  creation_date : AmigaDate
  name_len : Nat
  disk_name : List Nat
  last_modified : AmigaDate
  extension : Nat
  sec_type : Int
  deriving DecidableEq, Repr

/-- Root block parse from block.rs RootBlock.parse: type tag T_HEADER = 2 at
offset 0, secondary type ST_ROOT = 1 at offset 508, then the normal checksum
at offset 20, then field extraction at the fixed offsets of the 512-byte
layout. -/
def RootBlock.parse (buf : Buf) : Except AffsError RootBlock :=
  if readI32 buf 0 ≠ 2 then .error .invalidBlockType
  else if readI32 buf 508 ≠ 1 then .error .invalidSecType
  else if readU32 buf 20 ≠ normal_sum buf 20 then .error .checksumMismatch
  else
    let name_len := min (buf 432 % 256) 30
    .ok {
      block_type := readI32 buf 0
      hash_table_size := readI32 buf 12
      checksum := readU32 buf 20
      hash_table := (List.range 72).map fun i => readU32 buf (24 + 4 * i)
      bm_flag := readI32 buf 312
      bm_pages := (List.range 25).map fun i => readU32 buf (316 + 4 * i)
      bm_ext := readU32 buf 416
      creation_date := ⟨readI32 buf 420, readI32 buf 424, readI32 buf 428⟩
      name_len := name_len
      disk_name := (List.range name_len).map fun i => buf (433 + i) % 256
      last_modified := ⟨readI32 buf 472, readI32 buf 476, readI32 buf 480⟩
      extension := readU32 buf 504
      sec_type := readI32 buf 508 }

/-- Parsed entry block (file header or directory) from block.rs EntryBlock. -/
structure EntryBlock where
  block_type : Int
  header_key : Nat
  high_seq : Int
  first_data : Nat
  checksum : Nat
  hash_table : List Nat
  access : Nat
  byte_size : Nat
  comment_len : Nat
  comment : List Nat
  date : AmigaDate
  name_len : Nat
  name : List Nat
  real_entry : Nat
  next_link : Nat
  next_same_hash : Nat
  parent : Nat
  extension : Nat
  sec_type : Int
  deriving DecidableEq, Repr

/-- Entry block parse from block.rs EntryBlock.parse: type tag T_HEADER = 2 at
offset 0, then the normal checksum at offset 20, then field extraction at the
fixed offsets of the 512-byte layout. -/
def EntryBlock.parse (buf : Buf) : Except AffsError EntryBlock :=
  if readI32 buf 0 ≠ 2 then .error .invalidBlockType
  else if readU32 buf 20 ≠ normal_sum buf 20 then .error .checksumMismatch
  else
    let name_len := min (buf 432 % 256) 30
    let comment_len := min (buf 328 % 256) 79
    .ok {
      block_type := readI32 buf 0
      header_key := readU32 buf 4
      high_seq := readI32 buf 8
      first_data := readU32 buf 16
      checksum := readU32 buf 20
      hash_table := (List.range 72).map fun i => readU32 buf (24 + 4 * i)
      access := readU32 buf 320
      byte_size := readU32 buf 324
      comment_len := comment_len
      comment := (List.range comment_len).map fun i => buf (329 + i) % 256
      date := ⟨readI32 buf 420, readI32 buf 424, readI32 buf 428⟩
      name_len := name_len
      name := (List.range name_len).map fun i => buf (433 + i) % 256
      real_entry := readU32 buf 468
      next_link := readU32 buf 472
      next_same_hash := readU32 buf 496
      parent := readU32 buf 500
      extension := readU32 buf 504
      sec_type := readI32 buf 508 }

/-- File predicate from block.rs EntryBlock.is_file: ST_FILE or ST_LFILE. -/
def EntryBlock.is_file (e : EntryBlock) : Bool :=
  decide (e.sec_type = -3) || decide (e.sec_type = -4)

/-- Directory predicate from block.rs EntryBlock.is_dir: ST_DIR or ST_LDIR. -/
def EntryBlock.is_dir (e : EntryBlock) : Bool :=
  decide (e.sec_type = 2) || decide (e.sec_type = 4)

/-- Data block pointer accessor from block.rs EntryBlock.data_block: the
pointers are stored in reverse order, out-of-range indices yield 0. -/
def EntryBlock.data_block (e : EntryBlock) (index : Nat) : Nat :=
  if index < 72 then e.hash_table.getD (71 - index) 0 else 0

/-- Parsed file extension block from block.rs FileExtBlock. -/
structure FileExtBlock where
  block_type : Int
  header_key : Nat
  high_seq : Int
  checksum : Nat
  data_blocks : List Nat
  parent : Nat
  extension : Nat
  sec_type : Int
  deriving DecidableEq, Repr

/-- File extension block parse from block.rs FileExtBlock.parse: type tag
T_LIST = 16, then the normal checksum at offset 20, then the fields. -/
def FileExtBlock.parse (buf : Buf) : Except AffsError FileExtBlock :=
  if readI32 buf 0 ≠ 16 then .error .invalidBlockType
  else if readU32 buf 20 ≠ normal_sum buf 20 then .error .checksumMismatch
  else .ok {
    block_type := readI32 buf 0
    header_key := readU32 buf 4
    high_seq := readI32 buf 8
    checksum := readU32 buf 20
    data_blocks := (List.range 72).map fun i => readU32 buf (24 + 4 * i)
    parent := readU32 buf 500
    extension := readU32 buf 504
    sec_type := readI32 buf 508 }

/-- Data block pointer accessor from block.rs FileExtBlock.data_block. -/
def FileExtBlock.data_block (f : FileExtBlock) (index : Nat) : Nat :=
  if index < 72 then f.data_blocks.getD (71 - index) 0 else 0

/-- Parsed OFS data block header from block.rs OfsDataBlock. -/
structure OfsDataBlock where
  block_type : Int
  header_key : Nat
  seq_num : Nat
  data_size : Nat
  next_data : Nat
  checksum : Nat
  deriving DecidableEq, Repr

/-- OFS data block parse from block.rs OfsDataBlock.parse: type tag T_DATA = 8,
then the normal checksum at offset 20, then the header fields. -/
def OfsDataBlock.parse (buf : Buf) : Except AffsError OfsDataBlock :=
  if readI32 buf 0 ≠ 8 then .error .invalidBlockType
  else if readU32 buf 20 ≠ normal_sum buf 20 then .error .checksumMismatch
  else .ok {
    block_type := readI32 buf 0
    header_key := readU32 buf 4
    seq_num := readU32 buf 8
    data_size := readU32 buf 12
    next_data := readU32 buf 16
    checksum := readU32 buf 20 }

/-- Success test for a parse result. -/
def parseOk {α : Type} (x : Except AffsError α) : Bool :=
  match x with
  | .ok _ => true
  | .error _ => false

/-- Concrete 512-byte buffer forming a valid entry block: type tag HEADER = 2
in the first word, correct checksum 0xFFFFFFFE in the word at offset 20,
all other bytes zero. -/
def bufC3 : Buf := fun k =>
  if k = 3 then 2
  else if k = 20 then 255
  else if k = 21 then 255
  else if k = 22 then 255
  else if k = 23 then 254
  else 0

/-- Directory entry view from dir.rs DirEntry: the denormalized fields copied
out of an entry block. -/
structure DirEntry where
  name : List Nat
  entry_type : EntryType
  block : Nat
  parent : Nat
  size : Nat
  access : Nat
  date : AmigaDate
  real_entry : Nat
  comment : List Nat
  deriving DecidableEq, Repr

/-- Conversion from dir.rs DirEntry.from_entry_block: none when the secondary
type is unrecognized, otherwise the copied fields. -/
def DirEntry.from_entry_block (block_num : Nat) (entry : EntryBlock) : Option DirEntry :=
  match EntryType.from_sec_type entry.sec_type with
  | none => none
  | some t => some {
      name := entry.name.take (min entry.name_len 30)
      entry_type := t
      block := block_num
      parent := entry.parent
      size := entry.byte_size
      access := entry.access
      date := entry.date
      real_entry := entry.real_entry
      comment := entry.comment.take (min entry.comment_len 79) }

/-- Directory iterator state from dir.rs DirIter: copied hash table, bucket
cursor, collision chain cursor, international flag and block buffer. -/
structure DirIter where
  hash_table : List Nat
  hash_index : Nat
  current_chain : Nat
  intl : Bool
  buf : Buf

/-- Iterator construction from dir.rs DirIter.new. -/
def DirIter.new (hash_table : List Nat) (intl : Bool) : DirIter :=
  { hash_table := hash_table, hash_index := 0, current_chain := 0, intl := intl,
    buf := fun _ => 0 }

/-- Bucket scan of DirIter.next in dir.rs: advance hash_index over the 72
slots until a nonzero pointer is found; returns the new index and the found
pointer (0 when every remaining slot is empty).  The countdown argument is
72 - hash_index, making the while loop structural. -/
def scanBuckets (ht : List Nat) : Nat → Nat → Nat × Nat
  | i, 0 => (i, 0)
  | i, n + 1 =>
    let b := ht.getD i 0
    if b ≠ 0 then (i + 1, b) else scanBuckets ht (i + 1) n

/-- Lazy iteration step from dir.rs DirIter::next.  The fuel argument bounds
the skip-and-continue paths of the Rust loop (which can run unboundedly on a
maliciously cyclic chain of unrecognized entries); every path the claims
depend on returns within one unit of fuel.  A failed device read returns the
read error and leaves the iterator state unchanged, exactly as the Rust code
does (no field is written before the early return). -/
def DirIter.next (dev : Device) : Nat → DirIter → Option (Except AffsError DirEntry) × DirIter
  | 0, it => (none, it)
  | fuel + 1, it =>
    if it.current_chain ≠ 0 then
      match dev it.current_chain with
      | none => (some (.error .blockReadError), it)
      | some b =>
        let it1 : DirIter := { it with buf := b }
        match EntryBlock.parse b with
        | .error e => (some (.error e), it1)
        | .ok entry =>
          let block := it1.current_chain
          let it2 : DirIter := { it1 with current_chain := entry.next_same_hash }
          match DirEntry.from_entry_block block entry with
          | some de => (some (.ok de), it2)
          | none => DirIter.next dev fuel it2
    else
      let scanned := scanBuckets it.hash_table it.hash_index (72 - it.hash_index)
      if scanned.2 = 0 then (none, { it with hash_index := scanned.1 })
      else DirIter.next dev fuel { it with hash_index := scanned.1, current_chain := scanned.2 }

/-- Chain walk of dir.rs DirIter::find: follow next_same_hash pointers in the
hashed bucket until the name matches, the chain ends (entryNotFound), or a
read or parse error occurs.  The fuel bounds the walk, standing in for the
unbounded Rust while loop. -/
def findChain (dev : Device) (intl : Bool) (name : List Nat) :
    Nat → Nat → Except AffsError DirEntry
  | _, 0 => .error .entryNotFound
  | 0, _ => .error .invalidState
  | fuel + 1, block =>
    match dev block with
    | none => .error .blockReadError
    | some b =>
      match EntryBlock.parse b with
      | .error e => .error e
      | .ok entry =>
        if names_equal entry.name name intl then
          match DirEntry.from_entry_block block entry with
          | some de => .ok de
          | none => .error .invalidSecType
        else findChain dev intl name fuel entry.next_same_hash

/-- Point lookup from dir.rs DirIter::find: reject names longer than 30 bytes
before anything else, then walk only the bucket selected by hash_name. -/
def DirIter.find (dev : Device) (fuel : Nat) (it : DirIter) (name : List Nat) :
    Except AffsError DirEntry :=
  if name.length > 30 then .error .nameTooLong
  else findChain dev it.intl name fuel (it.hash_table.getD (hash_name name it.intl) 0)

/-- Device that fails every read. -/
def devC1 : Device := fun _ => none

/-- Iterator already positioned on chain block 5. -/
def itC1 : DirIter :=
  { hash_table := 5 :: List.replicate 71 0, hash_index := 1, current_chain := 5,
    intl := false, buf := fun _ => 0 }

/-- Iterator at the start of a directory whose bucket 0 points at block 5. -/
def itC1start : DirIter :=
  { hash_table := 5 :: List.replicate 71 0, hash_index := 0, current_chain := 0,
    intl := false, buf := fun _ => 0 }

/-- Iterator over an empty hash table. -/
def itC10 : DirIter := DirIter.new (List.replicate 72 0) false

/-- Conversion of an i32 value to u32, as in the Rust cast entry.high_seq as u32. -/
def u32OfI32 (x : Int) : Nat := (x % 4294967296).toNat

/-- Streaming file reader state from file.rs FileReader: sizes, cursors, the
current and initial data-pointer tables, extension chain pointers, the OFS
linked-list cursor and the single block buffer. -/
structure FileReader where
  fs_type : FsType
  header_block : Nat
  file_size : Nat
  remaining : Nat
  block_index : Nat
  initial_blocks_in_header : Nat
  blocks_in_current : Nat
  index_in_current : Nat
  initial_data_blocks : List Nat
  data_blocks : List Nat
  initial_extension : Nat
  next_extension : Nat
  initial_first_data : Nat
  current_data_block : Nat
  offset_in_block : Nat
  buf : Buf

/-- Construction from an already-parsed entry block, from file.rs
FileReader.from_entry: notAFile unless the secondary type is file or
hard-link-to-file. -/
def FileReader.from_entry (fs_type : FsType) (header_block : Nat) (entry : EntryBlock) :
    Except AffsError FileReader :=
  if ¬ entry.is_file then .error .notAFile
  else .ok {
    fs_type := fs_type
    header_block := header_block
    file_size := entry.byte_size
    remaining := entry.byte_size
    block_index := 0
    initial_blocks_in_header := u32OfI32 entry.high_seq
    blocks_in_current := u32OfI32 entry.high_seq
    index_in_current := 0
    initial_data_blocks := entry.hash_table
    data_blocks := entry.hash_table
    initial_extension := entry.extension
    next_extension := entry.extension
    initial_first_data := entry.first_data
    current_data_block := entry.first_data
    offset_in_block := 0
    buf := fun _ => 0 }

/-- Construction that reads the header block first, from file.rs FileReader.new. -/
def FileReader.new (dev : Device) (fs_type : FsType) (header_block : Nat) :
    Except AffsError FileReader :=
  match dev header_block with
  | none => .error .blockReadError
  | some b =>
    match EntryBlock.parse b with
    | .error e => .error e
    | .ok entry =>
      match FileReader.from_entry fs_type header_block entry with
      | .error e => .error e
      | .ok st => .ok { st with buf := b }

/-- Current byte position, from file.rs FileReader.position. -/
def FileReader.position (st : FileReader) : Nat := st.file_size - st.remaining

/-- Data payload capacity per block, from file.rs data_block_size:
OFS_DATA_SIZE = 488, FFS_DATA_SIZE = 512. -/
def FileReader.data_block_size (st : FileReader) : Nat :=
  match st.fs_type with
  | .Ofs => 488
  | .Ffs => 512

/-- Payload start offset within a block, from file.rs data_offset. -/
def FileReader.data_offset (st : FileReader) : Nat :=
  match st.fs_type with
  | .Ofs => 24
  | .Ffs => 0

/-- Usable payload of the currently loaded block, from file.rs
current_block_data_size: the declared data_size of the parsed OFS header (0
when it does not parse), or for FFS the full block capped by the remaining
byte count. -/
def FileReader.current_block_data_size (st : FileReader) : Nat :=
  match st.fs_type with
  | .Ofs =>
    match OfsDataBlock.parse st.buf with
    | .ok h => h.data_size
    | .error _ => 0
  | .Ffs => min (st.remaining + st.offset_in_block) 512

/-- Reset to the initial traversal state, from file.rs FileReader.reset. -/
def FileReader.reset (st : FileReader) : FileReader :=
  { st with
    remaining := st.file_size
    block_index := 0
    blocks_in_current := st.initial_blocks_in_header
    index_in_current := 0
    data_blocks := st.initial_data_blocks
    next_extension := st.initial_extension
    current_data_block := st.initial_first_data
    offset_in_block := 0 }

/-- OFS successor block, from file.rs get_next_ofs_block: the header's
first_data for the first block, afterwards the next_data pointer of the OFS
header parsed from the current buffer. -/
def FileReader.get_next_ofs_block (st : FileReader) : Except AffsError Nat × FileReader :=
  if st.block_index = 0 then (.ok st.current_data_block, st)
  else
    match OfsDataBlock.parse st.buf with
    | .error e => (.error e, st)
    | .ok h => (.ok h.next_data, { st with current_data_block := h.next_data })

/-- Tail of get_next_ffs_block in file.rs: after the optional extension
reload, return 0 when the table is exhausted, otherwise the pointer at the
reversed index and advance the cursor. -/
def FileReader.ffs_pick (st : FileReader) : Except AffsError Nat × FileReader :=
  if st.index_in_current ≥ st.blocks_in_current then (.ok 0, st)
  else
    let idx := st.index_in_current
    let block := if idx < 72 then st.data_blocks.getD (71 - idx) 0 else 0
    (.ok block, { st with index_in_current := idx + 1 })

/-- FFS successor block, from file.rs get_next_ffs_block: refill the pointer
table from the next extension block when the current table is exhausted, then
pick the pointer at the reversed index. -/
def FileReader.get_next_ffs_block (dev : Device) (st : FileReader) :
    Except AffsError Nat × FileReader :=
  if st.index_in_current ≥ st.blocks_in_current then
    if st.next_extension = 0 then (.ok 0, st)
    else
      match dev st.next_extension with
      | none => (.error .blockReadError, st)
      | some b =>
        match FileExtBlock.parse b with
        | .error e => (.error e, { st with buf := b })
        | .ok ext =>
          FileReader.ffs_pick { st with
            buf := b
            data_blocks := ext.data_blocks
            blocks_in_current := u32OfI32 ext.high_seq
            next_extension := ext.extension
            index_in_current := 0 }
  else FileReader.ffs_pick st

/-- Dispatch of file.rs get_next_data_block. -/
def FileReader.get_next_data_block (dev : Device) (st : FileReader) :
    Except AffsError Nat × FileReader :=
  match st.fs_type with
  | .Ofs => st.get_next_ofs_block
  | .Ffs => FileReader.get_next_ffs_block dev st

/-- Loading of the next data block, from file.rs read_next_data_block: a zero
pointer is end of file, then the block is read from the device, validated as
an OFS data block when applicable, and the in-block offset reset. -/
def FileReader.read_next_data_block (dev : Device) (st : FileReader) :
    Except AffsError Unit × FileReader :=
  match FileReader.get_next_data_block dev st with
  | (.error e, st1) => (.error e, st1)
  | (.ok block, st1) =>
    if block = 0 then (.error .endOfFile, st1)
    else
      match dev block with
      | none => (.error .blockReadError, st1)
      | some b =>
        match st1.fs_type with
        | .Ofs =>
          match OfsDataBlock.parse b with
          | .error e => (.error e, { st1 with buf := b })
          | .ok _ =>
            (.ok (), { st1 with
              buf := b
              offset_in_block := 0
              block_index := st1.block_index + 1 })
        | .Ffs =>
          (.ok (), { st1 with
            buf := b
            offset_in_block := 0
            block_index := st1.block_index + 1 })

/-- Block reload condition at the top of the read loop in file.rs
FileReader.read: a fresh or exhausted in-block offset triggers loading of the
next data block. -/
def FileReader.maybeReload (dev : Device) (st : FileReader) :
    Except AffsError Unit × FileReader :=
  if st.offset_in_block = 0 ∨ st.offset_in_block ≥ st.data_block_size then
    FileReader.read_next_data_block dev st
  else (.ok (), st)

/-- Main loop of file.rs FileReader.read.  Each successful iteration copies
toRead bytes (at least 1) into the caller's buffer and advances the cursors;
a zero toRead breaks out returning the bytes read so far.  The fuel is
outLen - total at the call site; since every continuing iteration increases
total, fuel exhaustion coincides with the loop condition turning false, so
the structural fuel recursion computes exactly what the Rust while loop does.
The byte copy into the caller's buffer affects neither the reader state nor
the count and is not modelled. -/
def FileReader.read_loop (dev : Device) :
    Nat → FileReader → Nat → Nat → Except AffsError Nat × FileReader
  | 0, st, _, total => (.ok total, st)
  | fuel + 1, st, outLen, total =>
    if total < outLen ∧ 0 < st.remaining then
      match FileReader.maybeReload dev st with
      | (.error e, st1) => (.error e, st1)
      | (.ok _, st1) =>
        if min (st1.current_block_data_size - st1.offset_in_block)
            (min (outLen - total) st1.remaining) = 0 then (.ok total, st1)
        else
          FileReader.read_loop dev fuel
            { st1 with
              offset_in_block := st1.offset_in_block +
                min (st1.current_block_data_size - st1.offset_in_block)
                  (min (outLen - total) st1.remaining)
              remaining := st1.remaining -
                min (st1.current_block_data_size - st1.offset_in_block)
                  (min (outLen - total) st1.remaining) } outLen
            (total + min (st1.current_block_data_size - st1.offset_in_block)
              (min (outLen - total) st1.remaining))
    else (.ok total, st)

/-- Buffered read from file.rs FileReader.read: immediately 0 at end of file
or for an empty output buffer, otherwise the main loop. -/
def FileReader.read (dev : Device) (st : FileReader) (outLen : Nat) :
    Except AffsError Nat × FileReader :=
  if st.remaining = 0 ∨ outLen = 0 then (.ok 0, st)
  else FileReader.read_loop dev outLen st outLen 0

/-- Skip loop of file.rs FileReader.seek: read and discard up to 512 bytes at
a time; a read that returns 0 mid-skip is endOfFile.  Every continuing
iteration skips at least one byte, so fuel = toSkip makes the structural
recursion compute exactly what the Rust while loop does. -/
def FileReader.seekLoop (dev : Device) :
    Nat → FileReader → Nat → Except AffsError Unit × FileReader
  | 0, st, _ => (.ok (), st)
  | fuel + 1, st, toSkip =>
    if 0 < toSkip then
      match FileReader.read dev st (min toSkip 512) with
      | (.error e, st1) => (.error e, st1)
      | (.ok n, st1) =>
        if n = 0 then (.error .endOfFile, st1)
        else FileReader.seekLoop dev fuel st1 (toSkip - n)
    else (.ok (), st)

/-- Seek from file.rs FileReader.seek: endOfFile past the file size, no-op at
the current position, reset first for backward seeks, then forward skip. -/
def FileReader.seek (dev : Device) (st : FileReader) (pos : Nat) :
    Except AffsError Unit × FileReader :=
  if pos > st.file_size then (.error .endOfFile, st)
  else if pos = st.position then (.ok (), st)
  else
    let st1 := if pos < st.position then st.reset else st
    FileReader.seekLoop dev (pos - st1.position) st1 (pos - st1.position)

/-- Data block pointer table with the single nonzero pointer 3 in the last
physical slot (logical index 0). -/
def dbW : List Nat := List.replicate 71 0 ++ [3]

/-- Device holding one FFS data block full of byte 7 at block 3. -/
def devW : Device := fun b => if b = 3 then some (fun _ => 7) else none

/-- FFS reader over a 5-byte file whose single data block is block 3. -/
def stW : FileReader :=
  { fs_type := .Ffs, header_block := 9, file_size := 5, remaining := 5, block_index := 0,
    initial_blocks_in_header := 1, blocks_in_current := 1, index_in_current := 0,
    initial_data_blocks := dbW, data_blocks := dbW, initial_extension := 0,
    next_extension := 0, initial_first_data := 0, current_data_block := 0,
    offset_in_block := 0, buf := fun _ => 0 }

/-- Concrete 512-byte buffer forming a valid OFS data block that declares
data_size 0: type tag DATA = 8 in the first word, correct checksum 0xFFFFFFF8
at offset 20, everything else zero. -/
def ofsBufC2 : Buf := fun k =>
  if k = 3 then 8
  else if k = 20 then 255
  else if k = 21 then 255
  else if k = 22 then 255
  else if k = 23 then 248
  else 0

/-- Device holding the zero-sized OFS data block at block 3. -/
def devO : Device := fun b => if b = 3 then some ofsBufC2 else none

/-- OFS reader over a 5-byte file whose first data block is block 3. -/
def stO : FileReader :=
  { fs_type := .Ofs, header_block := 9, file_size := 5, remaining := 5, block_index := 0,
    initial_blocks_in_header := 0, blocks_in_current := 0, index_in_current := 0,
    initial_data_blocks := List.replicate 72 0, data_blocks := List.replicate 72 0,
    initial_extension := 0, next_extension := 0, initial_first_data := 3,
    current_data_block := 3, offset_in_block := 0, buf := fun _ => 0 }

/-- Device that fails every read. -/
def devN : Device := fun _ => none

/-- FFS reader whose header declares a 10-byte file but no data blocks at all
(high_seq 0 and no extension block): consistent with a corrupted header. -/
def stC7 : FileReader :=
  { fs_type := .Ffs, header_block := 9, file_size := 10, remaining := 10, block_index := 0,
    initial_blocks_in_header := 0, blocks_in_current := 0, index_in_current := 0,
    initial_data_blocks := List.replicate 72 0, data_blocks := List.replicate 72 0,
    initial_extension := 0, next_extension := 0, initial_first_data := 0,
    current_data_block := 0, offset_in_block := 0, buf := fun _ => 0 }

/-- Concatenation of two 512-byte sectors into the 1024-byte boot buffer, as
reader.rs with_size assembles it from blocks 0 and 1. -/
def bootCat (s0 s1 : Buf) : Buf := fun k => if k < 512 then s0 k else s1 (k - 512)

/-- Root block number choice of reader.rs with_size: the boot block's stored
pointer when nonzero, otherwise the middle of the disk. -/
def rootChoice (boot : BootBlock) (total_blocks : Nat) : Nat :=
  if boot.root_block ≠ 0 then boot.root_block else total_blocks / 2

/-- Fixed-block-size reader state from reader.rs AffsReader. -/
structure AffsReader where
  boot : BootBlock
  root : RootBlock
  root_block : Nat
  total_blocks : Nat

/-- Construction from reader.rs AffsReader.with_size: read and parse the boot
block from blocks 0 and 1, choose the root block number, validate it against
the block count before reading the root block, then read and parse the root
block. -/
def AffsReader.with_size (dev : Device) (total_blocks : Nat) : Except AffsError AffsReader :=
  match dev 0 with
  | none => .error .blockReadError
  | some s0 =>
    match dev 1 with
    | none => .error .blockReadError
    | some s1 =>
      match BootBlock.parse (bootCat s0 s1) with
      | .error e => .error e
      | .ok boot =>
        if rootChoice boot total_blocks ≥ total_blocks then .error .blockOutOfRange
        else
          match dev (rootChoice boot total_blocks) with
          | none => .error .blockReadError
          | some rb =>
            match RootBlock.parse rb with
            | .error e => .error e
            | .ok root =>
              .ok { boot := boot
                    root := root
                    root_block := rootChoice boot total_blocks
                    total_blocks := total_blocks }

/-- All-zero sector. -/
def zeroBuf : Buf := fun _ => 0

/-- Boot sector with the DOS signature, the FFS flag, no boot code and stored
root pointer 100. -/
def bootBufC9 : Buf := fun k =>
  if k = 0 then 68
  else if k = 1 then 79
  else if k = 2 then 83
  else if k = 3 then 1
  else if k = 11 then 100
  else 0

/-- Device with only the two boot sectors readable. -/
def devC9 : Device := fun b =>
  if b = 0 then some bootBufC9 else if b = 1 then some zeroBuf else none

/-- Parsed form of the concrete boot block. -/
def bC9 : BootBlock := { dos_type := [68, 79, 83, 1], checksum := 0, root_block := 100 }

/-- Sector assembly from varblock.rs read_sectors: n consecutive 512-byte
sectors starting at start, all of which must read successfully. -/
def read_sectors (dev : Device) (start n : Nat) : Option Buf :=
  if (List.range n).all (fun i => (dev (start + i)).isSome) then
    some (fun k =>
      match dev (start + k / 512) with
      | some s => s (k % 512)
      | none => 0)
  else none

/-- Probe result from varblock.rs ProbeResult. -/
structure ProbeResult where
  fs_type : FsType
  fs_flags : FsFlags
  root_block : Nat
  log_blocksize : Nat
  block_size : Nat
  hash_table_size : Nat
  boot_sector : Nat
  disk_name : List Nat
  creation_date : AmigaDate
  last_modified : AmigaDate
  deriving DecidableEq, Repr

/-- Construction of the accepted probe result in varblock.rs probe: the root
fields are read at the block-size-relative offsets of the source (name and
creation date at block_size - 92, modification date at block_size - 40). -/
def mkProbeResult (s flags rbn lb : Nat) (buf : Buf) : ProbeResult :=
  { fs_type := .Ffs
    fs_flags := FsFlags.from_dos_type flags
    root_block := rbn
    log_blocksize := lb
    block_size := 512 * 2 ^ lb
    hash_table_size := readU32 buf 12
    boot_sector := s
    disk_name := (List.range (min (buf (512 * 2 ^ lb - 92) % 256) 30)).map
      (fun i => buf (512 * 2 ^ lb - 92 + 1 + i) % 256)
    creation_date := ⟨readI32 buf (512 * 2 ^ lb - 92), readI32 buf (512 * 2 ^ lb - 88),
      readI32 buf (512 * 2 ^ lb - 84)⟩
    last_modified := ⟨readI32 buf (512 * 2 ^ lb - 40), readI32 buf (512 * 2 ^ lb - 36),
      readI32 buf (512 * 2 ^ lb - 32)⟩ }

/-- Boot sector checks of varblock.rs probe at one candidate boot sector:
read two sectors, require the DOS signature and the FFS flag bit, validate
the boot checksum when boot code is present; yields the flags byte and the
stored root block number. -/
def bootTry (dev : Device) (s : Nat) : Option (Nat × Nat) :=
  match read_sectors dev s 2 with
  | none => none
  | some buf =>
    if buf 0 % 256 = 68 ∧ buf 1 % 256 = 79 ∧ buf 2 % 256 = 83 then
      if buf 3 % 256 % 2 = 1 then
        if buf 12 % 256 ≠ 0 then
          if readU32 buf 4 = boot_sum buf then some (buf 3 % 256, readU32 buf 8) else none
        else some (buf 3 % 256, readU32 buf 8)
      else none
    else none

/-- Root block checks of varblock.rs probe at one candidate block size: read
the candidate-sized root block, require type tag HEADER, secondary type ROOT
at block_size - 4, a nonzero hash-table-size field, and a valid normal-sum
checksum at offset 20 over the whole candidate-sized buffer. -/
def rootTry (dev : Device) (s flags rbn lb : Nat) : Option ProbeResult :=
  match read_sectors dev (rbn * 2 ^ lb) (2 ^ lb) with
  | none => none
  | some buf =>
    if readI32 buf 0 = 2 then
      if readI32 buf (512 * 2 ^ lb - 4) = 1 then
        if readU32 buf 12 ≠ 0 then
          if readU32 buf 20 = normal_sum_slice_scalar buf (512 * 2 ^ lb) 20 then
            some (mkProbeResult s flags rbn lb buf)
          else none
        else none
      else none
    else none

/-- Inner block-size loop of varblock.rs probe over the candidate log sizes. -/
def probeInner (dev : Device) (s flags rbn : Nat) : List Nat → Option ProbeResult
  | [] => none
  | lb :: rest =>
    match rootTry dev s flags rbn lb with
    | some r => some r
    | none => probeInner dev s flags rbn rest

/-- Outer boot-sector loop of varblock.rs probe: a failed boot check skips to
the next boot sector; a passing boot check tries every block size before
falling back to the next boot sector. -/
def probeOuter (dev : Device) : List Nat → Option ProbeResult
  | [] => none
  | s :: rest =>
    match bootTry dev s with
    | none => probeOuter dev rest
    | some fr =>
      match probeInner dev s fr.1 fr.2 [0, 1, 2, 3, 4] with
      | some r => some r
      | none => probeOuter dev rest

/-- Probe from varblock.rs AffsReaderVar.probe: boot sectors 0 then 1, block
sizes 512 to 8192; when nothing matches, invalidDosType. -/
def AffsReaderVar.probe (dev : Device) : Except AffsError ProbeResult :=
  match probeOuter dev [0, 1] with
  | some r => .ok r
  | none => .error .invalidDosType

/-- Specification form of the boot sector checks, following the claim text as
one conjunction: DOS signature, FFS flag bit set, and the boot checksum valid
whenever boot code is present. -/
def specBootCandidate (dev : Device) (s : Nat) : Option (Nat × Nat) :=
  match read_sectors dev s 2 with
  | none => none
  | some buf =>
    if buf 0 % 256 = 68 ∧ buf 1 % 256 = 79 ∧ buf 2 % 256 = 83 ∧ buf 3 % 256 % 2 = 1 ∧
        (buf 12 % 256 ≠ 0 → readU32 buf 4 = boot_sum buf) then
      some (buf 3 % 256, readU32 buf 8)
    else none

/-- Specification form of the root block checks, following the claim text as
one conjunction: type tag HEADER, secondary type ROOT at block_size - 4,
nonzero hash-table-size field, valid normal-sum checksum at offset 20 over
the full candidate-size buffer. -/
def specRootCandidate (dev : Device) (s flags rbn lb : Nat) : Option ProbeResult :=
  match read_sectors dev (rbn * 2 ^ lb) (2 ^ lb) with
  | none => none
  | some buf =>
    if readI32 buf 0 = 2 ∧ readI32 buf (512 * 2 ^ lb - 4) = 1 ∧ readU32 buf 12 ≠ 0 ∧
        readU32 buf 20 = normal_sum_slice_scalar buf (512 * 2 ^ lb) 20 then
      some (mkProbeResult s flags rbn lb buf)
    else none

/-- Candidate order stated by the claim: boot sectors 0 then 1, and for each
of them the block sizes 512, 1024, 2048, 4096, 8192 in order. -/
def specCandidates : List (Nat × Nat) :=
  [(0, 0), (0, 1), (0, 2), (0, 3), (0, 4), (1, 0), (1, 1), (1, 2), (1, 3), (1, 4)]

/-- Outcome of one (boot sector, block size) candidate per the claim text:
the boot checks must pass for the sector, then the root checks for the size. -/
def specTryCandidate (dev : Device) (c : Nat × Nat) : Option ProbeResult :=
  match specBootCandidate dev c.1 with
  | none => none
  | some fr => specRootCandidate dev c.1 fr.1 fr.2 c.2

/-- Specification form of the whole probe, following the claim text: the
first candidate in the stated order that passes all checks is accepted; when
every combination fails, the probe fails with invalidDosType. -/
def specProbe (dev : Device) : Except AffsError ProbeResult :=
  match specCandidates.findSome? (specTryCandidate dev) with
  | some r => .ok r
  | none => .error .invalidDosType

/-- Outcome of one candidate expressed with the source-side checks. -/
def srcTry (dev : Device) (c : Nat × Nat) : Option ProbeResult :=
  match bootTry dev c.1 with
  | none => none
  | some fr => rootTry dev c.1 fr.1 fr.2 c.2

/-- Device for which every sector read fails. -/
def devC8 : Device := fun _ => none

theorem readU32_lt (buf : Buf) (off : Nat) : readU32 buf off < 4294967296 := by
  unfold readU32
  have h0 := Nat.mod_lt (buf off) (show 0 < 256 by decide)
  have h1 := Nat.mod_lt (buf (off + 1)) (show 0 < 256 by decide)
  have h2 := Nat.mod_lt (buf (off + 2)) (show 0 < 256 by decide)
  have h3 := Nat.mod_lt (buf (off + 3)) (show 0 < 256 by decide)
  omega

theorem readU32_congr (b1 b2 : Buf) (off : Nat)
    (h : ∀ k, off ≤ k → k < off + 4 → b1 k = b2 k) :
    readU32 b1 off = readU32 b2 off := by
  unfold readU32
  rw [h off (by omega) (by omega), h (off + 1) (by omega) (by omega),
    h (off + 2) (by omega) (by omega), h (off + 3) (by omega) (by omega)]

theorem writeU32_ne (buf : Buf) (off v k : Nat)
    (h : k < off ∨ off + 4 ≤ k) : writeU32 buf off v k = buf k := by
  unfold writeU32
  have h0 : k ≠ off := by omega
  have h1 : k ≠ off + 1 := by omega
  have h2 : k ≠ off + 2 := by omega
  have h3 : k ≠ off + 3 := by omega
  simp [h0, h1, h2, h3]

theorem readU32_writeU32_same (buf : Buf) (off v : Nat) (hv : v < 4294967296) :
    readU32 (writeU32 buf off v) off = v := by
  have e0 : writeU32 buf off v off = v / 16777216 % 256 := by
    unfold writeU32; simp
  have e1 : writeU32 buf off v (off + 1) = v / 65536 % 256 := by
    unfold writeU32; simp [show off + 1 ≠ off by omega]
  have e2 : writeU32 buf off v (off + 2) = v / 256 % 256 := by
    unfold writeU32
    simp [show off + 2 ≠ off by omega, show off + 2 ≠ off + 1 by omega]
  have e3 : writeU32 buf off v (off + 3) = v % 256 := by
    unfold writeU32
    simp [show off + 3 ≠ off by omega, show off + 3 ≠ off + 1 by omega,
      show off + 3 ≠ off + 2 by omega]
  unfold readU32
  rw [e0, e1, e2, e3]
  omega

theorem readU32_writeU32_disjoint (buf : Buf) (off v off2 : Nat)
    (h : off2 + 4 ≤ off ∨ off + 4 ≤ off2) :
    readU32 (writeU32 buf off v) off2 = readU32 buf off2 := by
  apply readU32_congr
  intro k hk1 hk2
  exact writeU32_ne buf off v k (by omega)

theorem sumWords_eq_wordTotal (buf : Buf) (cw : Nat) :
    ∀ n i s, s < 4294967296 →
      sumWords buf cw i n s = (s + wordTotal buf cw i n) % 4294967296 := by
  intro n
  induction n with
  | zero =>
    intro i s hs
    simp [sumWords, wordTotal, Nat.mod_eq_of_lt hs]
  | succ n ih =>
    intro i s hs
    by_cases h : i = cw
    · simp only [sumWords, wordTotal, if_pos h]
      rw [ih (i + 1) s hs]
      simp
    · simp only [sumWords, wordTotal, if_neg h]
      rw [ih (i + 1) ((s + readU32 buf (4 * i)) % 4294967296)
        (Nat.mod_lt _ (by decide))]
      conv_rhs => rw [← Nat.add_assoc]
      rw [Nat.mod_add_mod]

theorem wordTotal_congr (b1 b2 : Buf) (cw : Nat) :
    ∀ n i, (∀ k, i ≤ k → k < i + n → k ≠ cw → readU32 b1 (4 * k) = readU32 b2 (4 * k)) →
      wordTotal b1 cw i n = wordTotal b2 cw i n := by
  intro n
  induction n with
  | zero => intro i _; rfl
  | succ n ih =>
    intro i h
    simp only [wordTotal]
    rw [ih (i + 1) (fun k hk1 hk2 hk3 => h k (by omega) (by omega) hk3)]
    by_cases hi : i = cw
    · simp [hi]
    · simp only [if_neg hi]
      rw [h i (by omega) (by omega) hi]

theorem addc_lt (s d : Nat) : addc s d < 4294967296 := by
  unfold addc
  split
  · exact Nat.mod_lt _ (by decide)
  · exact Nat.mod_lt _ (by decide)

theorem addc_zero (s : Nat) (hs : s < 4294967296) : addc s 0 = s := by
  unfold addc
  simp [Nat.mod_eq_of_lt hs]

theorem condAdd_eq_addc (s d : Nat) (hs : s < 4294967296) : condAdd s d = addc s d := by
  unfold condAdd
  by_cases h : d = 0
  · simp [h, addc_zero s hs]
  · simp [h]

theorem condAdd_zero (s : Nat) : condAdd s 0 = s := by
  simp [condAdd]

theorem bootSeg_lt (buf : Buf) :
    ∀ n i s, s < 4294967296 → bootSeg buf i n s < 4294967296 := by
  intro n
  induction n with
  | zero => intro i s hs; exact hs
  | succ n ih => intro i s _; exact ih (i + 1) _ (addc_lt _ _)

theorem bootSeg_append (buf : Buf) :
    ∀ n m i s, bootSeg buf i (n + m) s = bootSeg buf (i + n) m (bootSeg buf i n s) := by
  intro n
  induction n with
  | zero => intro m i s; simp [bootSeg]
  | succ n ih =>
    intro m i s
    have : n + 1 + m = (n + m) + 1 := by omega
    rw [this]
    simp only [bootSeg]
    rw [ih m (i + 1) _]
    congr 1
    omega

theorem bootScalarLoop_no_skip (buf : Buf) :
    ∀ n i s, 2 ≤ i → bootScalarLoop buf i n s = bootSeg buf i n s := by
  intro n
  induction n with
  | zero => intro i s _; rfl
  | succ n ih =>
    intro i s hi
    simp only [bootScalarLoop, bootSeg, if_neg (show i ≠ 1 by omega)]
    exact ih (i + 1) _ (by omega)

theorem bootSimdChunk_full (buf : Buf) (i s : Nat) (hs : s < 4294967296)
    (h : i + 3 < 256) : bootSimdChunk buf i s = bootSeg buf i 4 s := by
  unfold bootSimdChunk bootLanes
  rw [if_pos h]
  simp only [bootSeg]
  rw [condAdd_eq_addc _ _ hs, condAdd_eq_addc _ _ (addc_lt _ _),
    condAdd_eq_addc _ _ (addc_lt _ _), condAdd_eq_addc _ _ (addc_lt _ _)]
  norm_num

theorem bootSimdChunks_full (buf : Buf) :
    ∀ n i s, s < 4294967296 → i + 4 * n ≤ 256 →
      bootSimdChunks buf i s n = bootSeg buf i (4 * n) s := by
  intro n
  induction n with
  | zero => intro i s _ _; rfl
  | succ n ih =>
    intro i s hs hle
    simp only [bootSimdChunks]
    rw [bootSimdChunk_full buf i s hs (by omega)]
    rw [ih (i + 4) _ (bootSeg_lt buf 4 i s hs) (by omega)]
    have h4 : 4 * (n + 1) = 4 + 4 * n := by omega
    rw [h4, bootSeg_append buf 4 (4 * n) i s]

theorem bootSimdChunks_split (buf : Buf) :
    ∀ n m i s, bootSimdChunks buf i s (n + m) =
      bootSimdChunks buf (i + 4 * n) (bootSimdChunks buf i s n) m := by
  intro n
  induction n with
  | zero => intro m i s; simp [bootSimdChunks]
  | succ n ih =>
    intro m i s
    have : n + 1 + m = (n + m) + 1 := by omega
    rw [this]
    simp only [bootSimdChunks]
    rw [ih m (i + 4) _]
    congr 1
    omega

theorem bootSimdChunk_last (buf : Buf) (s : Nat) (hs : s < 4294967296) :
    bootSimdChunk buf 254 s = bootSeg buf 254 2 s := by
  have h0 : bootLanes buf 254 0 = readU32 buf (4 * 254) := by
    unfold bootLanes; rw [if_neg (by omega)]; norm_num
  have h1 : bootLanes buf 254 1 = readU32 buf (4 * 255) := by
    unfold bootLanes; rw [if_neg (by omega)]; norm_num
  have h2 : bootLanes buf 254 2 = 0 := by
    unfold bootLanes; rw [if_neg (by omega)]; norm_num
  have h3 : bootLanes buf 254 3 = 0 := by
    unfold bootLanes; rw [if_neg (by omega)]; norm_num
  unfold bootSimdChunk
  rw [h0, h1, h2, h3, condAdd_zero, condAdd_zero,
    condAdd_eq_addc s (readU32 buf (4 * 254)) hs,
    condAdd_eq_addc (addc s (readU32 buf (4 * 254))) (readU32 buf (4 * 255)) (addc_lt _ _)]
  simp only [bootSeg]

theorem bootScalarLoop_start (buf : Buf) (n s : Nat) :
    bootScalarLoop buf 0 (n + 2) s = bootScalarLoop buf 2 n (addc s (readU32 buf 0)) := by
  simp only [bootScalarLoop]
  norm_num

theorem boot_sum_simd_eq_scalar (buf : Buf) : boot_sum_simd buf = boot_sum_scalar buf := by
  unfold boot_sum_simd boot_sum_scalar
  refine congrArg complU32 ?_
  have hstart : bootScalarLoop buf 0 256 0 = bootScalarLoop buf 2 254 (addc 0 (readU32 buf 0)) := by
    rw [show (256 : Nat) = 254 + 2 from rfl, bootScalarLoop_start]
  rw [hstart, bootScalarLoop_no_skip buf 254 2 _ (by omega)]
  have h0 : addc 0 (readU32 buf 0) < 4294967296 := addc_lt _ _
  rw [show (64 : Nat) = 63 + 1 by rfl, bootSimdChunks_split buf 63 1 2 _]
  have h63 : bootSimdChunks buf 2 (addc 0 (readU32 buf 0)) 63 =
      bootSeg buf 2 252 (addc 0 (readU32 buf 0)) := by
    have := bootSimdChunks_full buf 63 2 (addc 0 (readU32 buf 0)) h0 (by omega)
    simpa using this
  rw [h63]
  show bootSimdChunks buf 254 _ 1 = _
  simp only [bootSimdChunks]
  rw [bootSimdChunk_last buf _ (bootSeg_lt buf 252 2 _ h0)]
  rw [show (254 : Nat) = 252 + 2 by rfl, bootSeg_append buf 252 2 2 _]

theorem boot_sum_scalar_eq_spec (buf : Buf) : boot_sum_scalar buf = bootSumSpec buf := by
  unfold boot_sum_scalar bootSumSpec
  refine congrArg complU32 ?_
  have key : ∀ n i s, bootScalarLoop buf i n s = (List.range' i n).foldl
      (fun s j => if j = 1 then s else addc s (readU32 buf (4 * j))) s := by
    intro n
    induction n with
    | zero => intro i s; rfl
    | succ n ih =>
      intro i s
      simp only [bootScalarLoop, List.range', List.foldl]
      exact ih (i + 1) _
  rw [key 256 0 0, List.range_eq_range']

theorem hashLoop_congr (intl : Bool) :
    ∀ cs h1 h2, h1 % 2048 = h2 % 2048 → cs ≠ [] →
      hashLoop intl cs h1 = (cs.foldl (fun h c => (h * 13 + foldByte intl c) % 2048) h2) := by
  intro cs
  induction cs with
  | nil => intro h1 h2 _ hne; exact absurd rfl hne
  | cons c cs ih =>
    intro h1 h2 hmod _
    simp only [hashLoop, List.foldl]
    have step : (h1 * 13 % 4294967296 + foldByte intl c) % 4294967296 % 2048 =
        (h2 * 13 + foldByte intl c) % 2048 := by
      omega
    cases cs with
    | nil => simp only [hashLoop, List.foldl]; exact step
    | cons d ds =>
      exact ih _ _ (by rw [step, Nat.mod_mod]) (by simp)

theorem hash_name_eq_spec (name : List Nat) (intl : Bool) :
    hash_name name intl = hashNameSpec name intl := by
  cases name with
  | nil => rfl
  | cons c cs =>
    unfold hash_name hashNameSpec
    congr 1
    apply hashLoop_congr
    · rw [Nat.mod_mod_of_dvd _ (by norm_num : (2048 : Nat) ∣ 4294967296)]
    · simp

theorem readI32_congr (b1 b2 : Buf) (off : Nat) (h : readU32 b1 off = readU32 b2 off) :
    readI32 b1 off = readI32 b2 off := by
  unfold readI32
  rw [h]

theorem readI32_eq_two_iff (buf : Buf) (off : Nat) :
    readI32 buf off = 2 ↔ readU32 buf off = 2 := by
  have hlt := readU32_lt buf off
  unfold readI32
  by_cases h : readU32 buf off < 2147483648
  · rw [if_pos h]
    omega
  · rw [if_neg h]
    omega

theorem entry_parse_ok_iff (buf : Buf) :
    parseOk (EntryBlock.parse buf) = true ↔
      (readI32 buf 0 = 2 ∧ readU32 buf 20 = normal_sum buf 20) := by
  unfold EntryBlock.parse
  by_cases h1 : readI32 buf 0 ≠ 2
  · rw [if_pos h1]
    simp only [parseOk, Bool.false_eq_true, false_iff]
    intro hc
    exact h1 hc.1
  · rw [if_neg h1]
    by_cases h2 : readU32 buf 20 ≠ normal_sum buf 20
    · rw [if_pos h2]
      simp only [parseOk, Bool.false_eq_true, false_iff]
      intro hc
      exact h2 hc.2
    · rw [if_neg h2]
      simp only [parseOk, true_iff]
      exact ⟨by omega, by omega⟩

theorem normal_sum_eq_wordTotal (buf : Buf) :
    normal_sum buf 20 =
      (4294967296 - wordTotal buf 5 0 128 % 4294967296) % 4294967296 := by
  unfold normal_sum normal_sum_slice_scalar
  norm_num
  rw [sumWords_eq_wordTotal buf 5 128 0 0 (by decide)]
  simp

theorem wordTotal_write_one (b1 b2 : Buf) (cw j : Nat)
    (hagree : ∀ k, k ≠ j → readU32 b1 (4 * k) = readU32 b2 (4 * k)) :
    ∀ n i, i ≤ j → j < i + n → j ≠ cw →
      wordTotal b2 cw i n + readU32 b1 (4 * j) =
        wordTotal b1 cw i n + readU32 b2 (4 * j) := by
  intro n
  induction n with
  | zero => intro i h1 h2 _; omega
  | succ n ih =>
    intro i h1 h2 hcw
    by_cases hij : i = j
    · subst hij
      simp only [wordTotal, if_neg hcw]
      have htail : wordTotal b2 cw (i + 1) n = wordTotal b1 cw (i + 1) n := by
        apply wordTotal_congr
        intro k hk1 _ _
        exact (hagree k (by omega)).symm
      rw [htail]
      omega
    · simp only [wordTotal]
      have hhead : (if i = cw then 0 else readU32 b2 (4 * i)) =
          (if i = cw then 0 else readU32 b1 (4 * i)) := by
        by_cases hicw : i = cw
        · simp [hicw]
        · simp only [if_neg hicw]
          exact (hagree i hij).symm
      rw [hhead]
      have := ih (i + 1) (by omega) (by omega) hcw
      omega

theorem normal_sum_write_checksum (buf : Buf) (v : Nat) :
    normal_sum (writeU32 buf 20 v) 20 = normal_sum buf 20 := by
  rw [normal_sum_eq_wordTotal, normal_sum_eq_wordTotal]
  have : wordTotal (writeU32 buf 20 v) 5 0 128 = wordTotal buf 5 0 128 := by
    apply wordTotal_congr
    intro k _ _ hk5
    exact readU32_writeU32_disjoint buf 20 v (4 * k) (by omega)
  rw [this]

/-- Claim C3: checksum round-trip for EntryBlock.parse.  Writing
normal_sum(buffer, 20) into the word at offset 20 of a buffer whose type tag
check passes makes the parse succeed; for a valid buffer, changing any single
non-checksum word other than the type-tag word to a different value makes the
parse fail with checksumMismatch, while changing the type-tag word fails with
invalidBlockType instead; and normal_sum is the two's-complement negation of
the big-endian word sum that skips the checksum word. -/
theorem entry_checksum_roundtrip (buf : Buf) :
    (readI32 buf 0 = 2 →
      parseOk (EntryBlock.parse (writeU32 buf 20 (normal_sum buf 20))) = true) ∧
    (∀ j v, parseOk (EntryBlock.parse buf) = true → j < 128 → j ≠ 0 → j ≠ 5 →
      v < 4294967296 → v ≠ readU32 buf (4 * j) →
      EntryBlock.parse (writeU32 buf (4 * j) v) = .error .checksumMismatch) ∧
    (∀ v, parseOk (EntryBlock.parse buf) = true → v < 4294967296 → v ≠ readU32 buf 0 →
      EntryBlock.parse (writeU32 buf 0 v) = .error .invalidBlockType) ∧
    normal_sum buf 20 = (4294967296 - wordTotal buf 5 0 128 % 4294967296) % 4294967296 := by
  refine ⟨?_, ?_, ?_, normal_sum_eq_wordTotal buf⟩
  · intro hT
    have hc : normal_sum buf 20 < 4294967296 := by
      unfold normal_sum normal_sum_slice_scalar
      exact Nat.mod_lt _ (by decide)
    apply (entry_parse_ok_iff _).mpr
    constructor
    · rw [readI32_congr _ buf 0 (readU32_writeU32_disjoint buf 20 _ 0 (by omega))]
      exact hT
    · rw [readU32_writeU32_same buf 20 _ hc, normal_sum_write_checksum buf _]
  · intro j v hOk hj128 hj0 hj5 hv hvne
    obtain ⟨hA, hB⟩ := (entry_parse_ok_iff buf).mp hOk
    have hT' : readI32 (writeU32 buf (4 * j) v) 0 = 2 := by
      rw [readI32_congr _ buf 0 (readU32_writeU32_disjoint buf (4 * j) v 0 (by omega))]
      exact hA
    have hC' : readU32 (writeU32 buf (4 * j) v) 20 = readU32 buf 20 :=
      readU32_writeU32_disjoint buf (4 * j) v 20 (by omega)
    have hRead : readU32 (writeU32 buf (4 * j) v) (4 * j) = v :=
      readU32_writeU32_same buf (4 * j) v hv
    have hwt := wordTotal_write_one buf (writeU32 buf (4 * j) v) 5 j
      (fun k hk => (readU32_writeU32_disjoint buf (4 * j) v (4 * k) (by omega)).symm)
      128 0 (by omega) (by omega) hj5
    rw [hRead] at hwt
    have hold := readU32_lt buf (4 * j)
    have hNe : normal_sum (writeU32 buf (4 * j) v) 20 ≠ normal_sum buf 20 := by
      rw [normal_sum_eq_wordTotal, normal_sum_eq_wordTotal]
      omega
    unfold EntryBlock.parse
    rw [if_neg (by rw [hT']; omega)]
    rw [if_pos (by rw [hC', hB]; exact fun h => hNe h.symm)]
  · intro v hOk hv hvne
    obtain ⟨hA, _⟩ := (entry_parse_ok_iff buf).mp hOk
    have hu : readU32 buf 0 = 2 := (readI32_eq_two_iff buf 0).mp hA
    have hRead : readU32 (writeU32 buf 0 v) 0 = v :=
      readU32_writeU32_same buf 0 v hv
    have hT' : readI32 (writeU32 buf 0 v) 0 ≠ 2 := by
      rw [Ne, readI32_eq_two_iff, hRead]
      omega
    unfold EntryBlock.parse
    rw [if_pos hT']

/-- Witness for the C3 theorem at the concrete valid entry buffer: rewriting
the checksum keeps the parse succeeding, and corrupting word 7 of the valid
buffer produces checksumMismatch. -/
theorem entry_checksum_roundtrip_witness :
    parseOk (EntryBlock.parse (writeU32 bufC3 20 (normal_sum bufC3 20))) = true ∧
    EntryBlock.parse (writeU32 bufC3 (4 * 7) 1) = .error .checksumMismatch :=
  ⟨(entry_checksum_roundtrip bufC3).1 (by decide),
   (entry_checksum_roundtrip bufC3).2.1 7 1 (by decide) (by decide) (by decide) (by decide)
     (by decide) (by decide)⟩

/-- Counterexample to claim C3 as stated: word 0 is not the checksum word, yet
changing it on a valid entry buffer yields invalidBlockType, not the
checksumMismatch the claim requires for every non-checksum word. -/
theorem entry_checksum_claim_counterexample :
    parseOk (EntryBlock.parse bufC3) = true ∧
    (3 : Nat) ≠ readU32 bufC3 0 ∧
    EntryBlock.parse (writeU32 bufC3 0 3) = .error .invalidBlockType ∧
    AffsError.invalidBlockType ≠ AffsError.checksumMismatch :=
  ⟨by decide, by decide, rfl, by decide⟩

/-- Claim C5: hash_name equals the spec recurrence (length seed, case fold,
multiply by 13, add, mask 0x7FF, final mod 72), its result is always below
72, and the empty name hashes to 0 in either mode. -/
theorem hash_name_characterization (name : List Nat) (intl : Bool) :
    hash_name name intl = hashNameSpec name intl ∧
    hash_name name intl < 72 ∧
    hash_name [] intl = 0 :=
  ⟨hash_name_eq_spec name intl, Nat.mod_lt _ (by decide), rfl⟩

/-- Claim C6: the boot checksum matches the spec description (256 words, word
1 skipped, one's-complement accumulation, final bitwise complement), and the
SIMD variant agrees with the scalar reference on every buffer. -/
theorem boot_sum_characterization (buf : Buf) :
    boot_sum_scalar buf = bootSumSpec buf ∧
    boot_sum_simd buf = boot_sum_scalar buf ∧
    boot_sum buf = boot_sum_scalar buf :=
  ⟨boot_sum_scalar_eq_spec buf, boot_sum_simd_eq_scalar buf, rfl⟩

/-- Claim C1 (amended): when the device fails to read the current chain block,
next() yields one read-error result and leaves the iterator state unchanged;
because the state is unchanged, every subsequent call while the read keeps
failing yields the same read-error result again, rather than terminating. -/
theorem dir_iter_read_error (dev : Device) (fuel : Nat) (it : DirIter)
    (hc : it.current_chain ≠ 0) (hd : dev it.current_chain = none) :
    DirIter.next dev (fuel + 1) it = (some (.error .blockReadError), it) ∧
    ∀ fuel2, DirIter.next dev (fuel2 + 1) (DirIter.next dev (fuel + 1) it).2 =
      (some (.error .blockReadError), (DirIter.next dev (fuel + 1) it).2) := by
  have hfirst : DirIter.next dev (fuel + 1) it = (some (.error .blockReadError), it) := by
    unfold DirIter.next
    rw [if_pos hc, hd]
  refine ⟨hfirst, fun fuel2 => ?_⟩
  rw [hfirst]
  unfold DirIter.next
  rw [if_pos hc, hd]

/-- Witness for the C1 theorem at a failing device and an iterator mid-chain. -/
theorem dir_iter_read_error_witness :
    DirIter.next devC1 3 itC1 = (some (.error .blockReadError), itC1) :=
  (dir_iter_read_error devC1 2 itC1 (by decide) rfl).1

/-- Counterexample to claim C1 as stated: after the first read-error result,
a subsequent next() call yields another item (the same read error) instead of
returning no further item. -/
theorem dir_iter_claim_counterexample :
    (DirIter.next devC1 3 itC1start).1 = some (.error .blockReadError) ∧
    (DirIter.next devC1 3 (DirIter.next devC1 3 itC1start).2).1 =
      some (.error .blockReadError) ∧
    (DirIter.next devC1 3 (DirIter.next devC1 3 itC1start).2).1 ≠ none := by
  refine ⟨rfl, rfl, fun h => ?_⟩
  rw [show (DirIter.next devC1 3 (DirIter.next devC1 3 itC1start).2).1 =
    some (.error .blockReadError) from rfl] at h
  exact Option.noConfusion h

/-- Claim C10: find rejects a name longer than 30 bytes with nameTooLong, for
every device, fuel and iterator state alike: the result does not depend on
the device or the hash table, so no device read or hash computation can be
observed. -/
theorem find_name_too_long (dev : Device) (fuel : Nat) (it : DirIter) (name : List Nat)
    (h : 30 < name.length) :
    DirIter.find dev fuel it name = .error .nameTooLong := by
  unfold DirIter.find
  rw [if_pos (by omega)]

/-- Witness for the C10 theorem at a 31-byte name and a failing device. -/
theorem find_name_too_long_witness :
    DirIter.find devC1 5 itC10 (List.replicate 31 0) = .error .nameTooLong :=
  find_name_too_long devC1 5 itC10 (List.replicate 31 0) (by decide)

theorem ffs_pick_preserves (st : FileReader) (r : Except AffsError Nat) (st1 : FileReader)
    (h : FileReader.ffs_pick st = (r, st1)) :
    st1.remaining = st.remaining ∧ st1.fs_type = st.fs_type ∧
      st1.offset_in_block = st.offset_in_block := by
  unfold FileReader.ffs_pick at h
  split at h
  · cases h
    exact ⟨rfl, rfl, rfl⟩
  · cases h
    exact ⟨rfl, rfl, rfl⟩

theorem get_next_ffs_preserves (dev : Device) (st : FileReader) (r : Except AffsError Nat)
    (st1 : FileReader) (h : FileReader.get_next_ffs_block dev st = (r, st1)) :
    st1.remaining = st.remaining ∧ st1.fs_type = st.fs_type ∧
      st1.offset_in_block = st.offset_in_block := by
  unfold FileReader.get_next_ffs_block at h
  split at h
  · split at h
    · cases h
      exact ⟨rfl, rfl, rfl⟩
    · split at h
      · cases h
        exact ⟨rfl, rfl, rfl⟩
      · split at h
        · cases h
          exact ⟨rfl, rfl, rfl⟩
        · have hp := ffs_pick_preserves _ _ _ h
          exact hp
  · have hp := ffs_pick_preserves _ _ _ h
    exact hp

theorem get_next_ofs_preserves (st : FileReader) (r : Except AffsError Nat)
    (st1 : FileReader) (h : FileReader.get_next_ofs_block st = (r, st1)) :
    st1.remaining = st.remaining ∧ st1.fs_type = st.fs_type ∧
      st1.offset_in_block = st.offset_in_block := by
  unfold FileReader.get_next_ofs_block at h
  split at h
  · cases h
    exact ⟨rfl, rfl, rfl⟩
  · split at h
    · cases h
      exact ⟨rfl, rfl, rfl⟩
    · cases h
      exact ⟨rfl, rfl, rfl⟩

theorem get_next_preserves (dev : Device) (st : FileReader) (r : Except AffsError Nat)
    (st1 : FileReader) (h : FileReader.get_next_data_block dev st = (r, st1)) :
    st1.remaining = st.remaining ∧ st1.fs_type = st.fs_type ∧
      st1.offset_in_block = st.offset_in_block := by
  unfold FileReader.get_next_data_block at h
  split at h
  · exact get_next_ofs_preserves _ _ _ h
  · exact get_next_ffs_preserves _ _ _ _ h

theorem read_next_ok_facts (dev : Device) (st st1 : FileReader)
    (h : FileReader.read_next_data_block dev st = (.ok (), st1)) :
    st1.remaining = st.remaining ∧ st1.fs_type = st.fs_type ∧ st1.offset_in_block = 0 := by
  unfold FileReader.read_next_data_block at h
  split at h
  · rename_i e stE heq
    injection h with h1 h2
    cases h1
  · rename_i block stG heq
    have hpres := get_next_preserves dev st _ _ heq
    split at h
    · injection h with h1 h2
      cases h1
    · split at h
      · injection h with h1 h2
        cases h1
      · rename_i b hb
        split at h
        · split at h
          · injection h with h1 h2
            cases h1
          · cases h
            exact ⟨hpres.1, hpres.2.1, rfl⟩
        · cases h
          exact ⟨hpres.1, hpres.2.1, rfl⟩

theorem maybeReload_ok_facts (dev : Device) (st st1 : FileReader)
    (h : FileReader.maybeReload dev st = (.ok (), st1)) :
    st1.remaining = st.remaining ∧ st1.fs_type = st.fs_type ∧
      (st1.offset_in_block = 0 ∨
        (st1.offset_in_block = st.offset_in_block ∧ 0 < st.offset_in_block ∧
          st.offset_in_block < st.data_block_size)) := by
  unfold FileReader.maybeReload at h
  split at h
  · have := read_next_ok_facts dev st st1 h
    exact ⟨this.1, this.2.1, Or.inl this.2.2⟩
  · rename_i hcond
    cases h
    refine ⟨rfl, rfl, Or.inr ⟨rfl, ?_, ?_⟩⟩ <;> omega

theorem ffs_data_size (st : FileReader) (hfs : st.fs_type = .Ffs) :
    st.current_block_data_size = min (st.remaining + st.offset_in_block) 512 := by
  unfold FileReader.current_block_data_size
  rw [hfs]

theorem ffs_block_size (st : FileReader) (hfs : st.fs_type = .Ffs) :
    st.data_block_size = 512 := by
  unfold FileReader.data_block_size
  rw [hfs]

theorem read_loop_ffs (dev : Device) :
    ∀ fuel st outLen total n st',
      st.fs_type = .Ffs → outLen ≤ fuel + total →
      FileReader.read_loop dev fuel st outLen total = (.ok n, st') →
      n = total + min (outLen - total) st.remaining ∧
      st'.remaining = st.remaining - (n - total) := by
  intro fuel
  induction fuel with
  | zero =>
    intro st outLen total n st' hfs hle h
    simp only [FileReader.read_loop] at h
    injection h with h1 h2
    injection h1 with h1
    subst h1
    subst h2
    exact ⟨by omega, by omega⟩
  | succ fuel ih =>
    intro st outLen total n st' hfs hle h
    simp only [FileReader.read_loop] at h
    by_cases hcond : total < outLen ∧ 0 < st.remaining
    · rw [if_pos hcond] at h
      split at h
      · rename_i e st1 heq
        injection h with h1 h2
        cases h1
      · rename_i u st1 heq
        cases u
        obtain ⟨hrem1, hfs1, hoff1⟩ := maybeReload_ok_facts dev st st1 heq
        have hfs1f : st1.fs_type = .Ffs := by rw [hfs1, hfs]
        have hds := ffs_data_size st1 hfs1f
        have havail : 1 ≤ st1.current_block_data_size - st1.offset_in_block := by
          rw [hds]
          rcases hoff1 with hz | ⟨hoeq, hopos, holt⟩
          · rw [hz]
            omega
          · have h512 := ffs_block_size st hfs
            omega
        rw [if_neg (by omega)] at h
        obtain ⟨hn, hrem⟩ := ih _ outLen
          (total + min (st1.current_block_data_size - st1.offset_in_block)
            (min (outLen - total) st1.remaining)) n st' (by exact hfs1f) (by omega) h
        dsimp only at hn hrem
        constructor
        · omega
        · omega
    · rw [if_neg hcond] at h
      injection h with h1 h2
      injection h1 with h1
      subst h1
      subst h2
      exact ⟨by omega, by omega⟩

/-- Claim C2 (amended): read returns Ok(0) without touching the device when
the reader is at end of file or the output buffer is empty (so an exhausted
reader never produces an error); and for an FFS reader every successful read
returns exactly min(buffer length, bytes remaining) bytes, so Ok(0) on a
nonempty buffer and short reads occur exactly at end of file.  For OFS, a
data block declaring data_size 0 can additionally make read return Ok(0)
before end of file, as the counterexample shows. -/
theorem file_read_characterization (dev : Device) (st : FileReader) (outLen : Nat) :
    (st.remaining = 0 → FileReader.read dev st outLen = (.ok 0, st)) ∧
    (outLen = 0 → FileReader.read dev st outLen = (.ok 0, st)) ∧
    (st.fs_type = .Ffs → ∀ n st', FileReader.read dev st outLen = (.ok n, st') →
      n = min outLen st.remaining ∧ st'.remaining = st.remaining - n) := by
  refine ⟨?_, ?_, ?_⟩
  · intro h
    unfold FileReader.read
    rw [if_pos (Or.inl h)]
  · intro h
    unfold FileReader.read
    rw [if_pos (Or.inr h)]
  · intro hfs n st' h
    unfold FileReader.read at h
    by_cases hc : st.remaining = 0 ∨ outLen = 0
    · rw [if_pos hc] at h
      injection h with h1 h2
      injection h1 with h1
      subst h1
      subst h2
      rcases hc with hc | hc
      · rw [hc]
        exact ⟨by omega, by omega⟩
      · rw [hc]
        exact ⟨by omega, by omega⟩
    · rw [if_neg hc] at h
      obtain ⟨hn, hrem⟩ := read_loop_ffs dev outLen st outLen 0 n st' hfs (by omega) h
      exact ⟨by omega, by omega⟩

/-- Witness for the C2 theorem: a 3-byte read from the 5-byte FFS file
returns exactly min(3, 5) = 3 bytes and leaves 2 bytes remaining. -/
theorem file_read_characterization_witness :
    3 = min 3 stW.remaining ∧
    (FileReader.read devW stW 3).2.remaining = stW.remaining - 3 := by
  have h := (file_read_characterization devW stW 3).2.2 rfl 3 (FileReader.read devW stW 3).2 rfl
  exact ⟨h.1, h.2⟩

/-- Counterexample to claim C2 as stated: read over an empty buffer returns
Ok(0) although the reader is not at end of file, and an OFS read whose data
block declares data_size 0 returns Ok(0) on a nonempty buffer with 5 bytes
still remaining. -/
theorem file_read_claim_counterexample :
    ((FileReader.read devW stW 0).1 = .ok 0 ∧ stW.remaining ≠ 0) ∧
    ((FileReader.read devO stO 2).1 = .ok 0 ∧
      (FileReader.read devO stO 2).2.remaining = 5 ∧ (2 : Nat) ≠ 0) :=
  ⟨⟨rfl, by decide⟩, ⟨rfl, rfl, by decide⟩⟩

/-- Claim C7 (amended): seek past the file size fails with endOfFile and
returns the state completely unchanged, and seek to the current position is a
no-op; a position within the file always passes the initial bounds check, but
the subsequent forward skip can still surface endOfFile when the block
metadata provides no further data blocks, so the claim's last part does not
hold in general. -/
theorem file_seek_characterization (dev : Device) (st : FileReader) (pos : Nat) :
    (pos > st.file_size → FileReader.seek dev st pos = (.error .endOfFile, st)) ∧
    (st.remaining ≤ st.file_size → pos = st.position →
      FileReader.seek dev st pos = (.ok (), st)) := by
  constructor
  · intro h
    unfold FileReader.seek
    rw [if_pos h]
  · intro hinv hpos
    unfold FileReader.seek
    have hle : ¬ pos > st.file_size := by
      unfold FileReader.position at hpos
      omega
    rw [if_neg hle, if_pos hpos]

/-- Witness for the C7 theorem: seeking to 11 in the 10-byte file fails with
endOfFile leaving the state unchanged, and seeking to the current position 0
is a no-op. -/
theorem file_seek_characterization_witness :
    FileReader.seek devN stC7 11 = (.error .endOfFile, stC7) ∧
    FileReader.seek devN stC7 0 = (.ok (), stC7) :=
  ⟨(file_seek_characterization devN stC7 11).1 (by decide),
   (file_seek_characterization devN stC7 0).2 (by decide) (by decide)⟩

/-- Counterexample to claim C7 as stated: position 1 does not exceed the file
size 10, yet seek fails with endOfFile, because the corrupted header offers
no data block to skip through. -/
theorem file_seek_claim_counterexample :
    (FileReader.seek devN stC7 1).1 = .error .endOfFile ∧ 1 ≤ stC7.file_size :=
  ⟨rfl, by decide⟩

theorem entry_parse_hash_table (buf : Buf) (e : EntryBlock)
    (h : EntryBlock.parse buf = .ok e) :
    e.hash_table = (List.range 72).map fun i => readU32 buf (24 + 4 * i) := by
  unfold EntryBlock.parse at h
  split at h
  · cases h
  · split at h
    · cases h
    · injection h with h
      subst h
      rfl

theorem file_ext_parse_data_blocks (buf : Buf) (f : FileExtBlock)
    (h : FileExtBlock.parse buf = .ok f) :
    f.data_blocks = (List.range 72).map fun i => readU32 buf (24 + 4 * i) := by
  unfold FileExtBlock.parse at h
  split at h
  · cases h
  · split at h
    · cases h
    · injection h with h
      subst h
      rfl

theorem getD_map_range (f : Nat → Nat) (n i : Nat) (h : i < n) :
    ((List.range n).map f).getD i 0 = f i := by
  rw [List.getD_eq_getElem?_getD, List.getElem?_map, List.getElem?_range h]
  rfl

/-- Claim C4: the data-block pointer for logical index N (N < 72) sits at
physical slot 71 - N of the 72-entry table, for both the EntryBlock and the
FileExtBlock accessor; an index of 72 or more yields pointer 0; and the FFS
sequential read path picks the pointer at the same reversed index before
advancing its cursor. -/
theorem data_block_reverse_order :
    (∀ (buf : Buf) (e : EntryBlock), EntryBlock.parse buf = .ok e → ∀ N, N < 72 →
      e.data_block N = readU32 buf (24 + 4 * (71 - N))) ∧
    (∀ (e : EntryBlock) (N : Nat), 72 ≤ N → e.data_block N = 0) ∧
    (∀ (buf : Buf) (f : FileExtBlock), FileExtBlock.parse buf = .ok f → ∀ N, N < 72 →
      f.data_block N = readU32 buf (24 + 4 * (71 - N))) ∧
    (∀ (f : FileExtBlock) (N : Nat), 72 ≤ N → f.data_block N = 0) ∧
    (∀ (dev : Device) (st : FileReader), st.index_in_current < st.blocks_in_current →
      FileReader.get_next_ffs_block dev st =
        (.ok (if st.index_in_current < 72 then
            st.data_blocks.getD (71 - st.index_in_current) 0 else 0),
         { st with index_in_current := st.index_in_current + 1 })) := by
  refine ⟨?_, ?_, ?_, ?_, ?_⟩
  · intro buf e h N hN
    unfold EntryBlock.data_block
    rw [if_pos hN, entry_parse_hash_table buf e h, getD_map_range _ 72 (71 - N) (by omega)]
  · intro e N hN
    unfold EntryBlock.data_block
    rw [if_neg (by omega)]
  · intro buf f h N hN
    unfold FileExtBlock.data_block
    rw [if_pos hN, file_ext_parse_data_blocks buf f h, getD_map_range _ 72 (71 - N) (by omega)]
  · intro f N hN
    unfold FileExtBlock.data_block
    rw [if_neg (by omega)]
  · intro dev st hlt
    unfold FileReader.get_next_ffs_block
    rw [if_neg (by omega)]
    unfold FileReader.ffs_pick
    rw [if_neg (by omega)]

/-- Witness for the C4 theorem: on the concrete valid entry buffer the
accessor at logical index 1 reads physical slot 70, and the FFS read path on
the concrete reader picks slot 71 for logical index 0. -/
theorem data_block_reverse_order_witness :
    (EntryBlock.parse bufC3).toOption.map (fun e => e.data_block 1) =
      some (readU32 bufC3 (24 + 4 * 70)) ∧
    FileReader.get_next_ffs_block devW stW =
      (.ok (stW.data_blocks.getD 71 0), { stW with index_in_current := 1 }) := by
  constructor
  · cases hp : EntryBlock.parse bufC3 with
    | error e =>
      have hok : parseOk (EntryBlock.parse bufC3) = true := by decide
      rw [hp] at hok
      simp [parseOk] at hok
    | ok e =>
      simp only [Except.toOption, Option.map]
      rw [data_block_reverse_order.1 bufC3 e hp 1 (by decide)]
  · exact data_block_reverse_order.2.2.2.2 devW stW (by decide)

/-- Claim C9: with_size chooses the root block number as the boot block's
stored pointer when nonzero and as total_blocks / 2 when zero; when the
chosen number is not below total_blocks it fails with blockOutOfRange for
every device agreeing on the two boot sectors, hence before any attempt to
read the root block; when in range, the outcome is determined by the device
read at exactly that block number. -/
theorem with_size_root_selection (dev : Device) (total_blocks : Nat) (s0 s1 : Buf)
    (b : BootBlock) (h0 : dev 0 = some s0) (h1 : dev 1 = some s1)
    (hb : BootBlock.parse (bootCat s0 s1) = .ok b) :
    (b.root_block ≠ 0 → rootChoice b total_blocks = b.root_block) ∧
    (b.root_block = 0 → rootChoice b total_blocks = total_blocks / 2) ∧
    (rootChoice b total_blocks ≥ total_blocks →
      AffsReader.with_size dev total_blocks = .error .blockOutOfRange) ∧
    (rootChoice b total_blocks < total_blocks →
      AffsReader.with_size dev total_blocks =
        (match dev (rootChoice b total_blocks) with
        | none => .error .blockReadError
        | some rb =>
          match RootBlock.parse rb with
          | .error e => .error e
          | .ok root =>
            .ok (AffsReader.mk b root (rootChoice b total_blocks) total_blocks))) := by
  refine ⟨?_, ?_, ?_, ?_⟩
  · intro h
    unfold rootChoice
    rw [if_pos h]
  · intro h
    unfold rootChoice
    rw [if_neg (by omega)]
  · intro h
    unfold AffsReader.with_size
    simp only [h0, h1, hb]
    rw [if_pos h]
  · intro h
    unfold AffsReader.with_size
    simp only [h0, h1, hb]
    rw [if_neg (by omega)]

/-- Witness for the C9 theorem: the stored root pointer 100 is out of range
for a 50-block device, so construction fails with blockOutOfRange even though
no block beyond the boot sectors is readable. -/
theorem with_size_root_selection_witness :
    AffsReader.with_size devC9 50 = .error .blockOutOfRange :=
  (with_size_root_selection devC9 50 bootBufC9 zeroBuf bC9 rfl rfl rfl).2.2.1 (by decide)

theorem bootTry_eq_spec (dev : Device) (s : Nat) :
    bootTry dev s = specBootCandidate dev s := by
  unfold bootTry specBootCandidate
  cases read_sectors dev s 2 with
  | none => rfl
  | some buf =>
    dsimp only
    by_cases h1 : buf 0 % 256 = 68 ∧ buf 1 % 256 = 79 ∧ buf 2 % 256 = 83
    · rw [if_pos h1]
      by_cases h2 : buf 3 % 256 % 2 = 1
      · rw [if_pos h2]
        by_cases h3 : buf 12 % 256 ≠ 0
        · rw [if_pos h3]
          by_cases h4 : readU32 buf 4 = boot_sum buf
          · rw [if_pos h4, if_pos ⟨h1.1, h1.2.1, h1.2.2, h2, fun _ => h4⟩]
          · rw [if_neg h4, if_neg (fun hc => h4 (hc.2.2.2.2 h3))]
        · rw [if_neg h3, if_pos ⟨h1.1, h1.2.1, h1.2.2, h2, fun hc => absurd hc h3⟩]
      · rw [if_neg h2, if_neg (fun hc => h2 hc.2.2.2.1)]
    · rw [if_neg h1,
        if_neg (fun hc => h1 ⟨hc.1, hc.2.1, hc.2.2.1⟩)]

theorem rootTry_eq_spec (dev : Device) (s flags rbn lb : Nat) :
    rootTry dev s flags rbn lb = specRootCandidate dev s flags rbn lb := by
  unfold rootTry specRootCandidate
  cases read_sectors dev (rbn * 2 ^ lb) (2 ^ lb) with
  | none => rfl
  | some buf =>
    dsimp only
    by_cases h1 : readI32 buf 0 = 2
    · rw [if_pos h1]
      by_cases h2 : readI32 buf (512 * 2 ^ lb - 4) = 1
      · rw [if_pos h2]
        by_cases h3 : readU32 buf 12 ≠ 0
        · rw [if_pos h3]
          by_cases h4 : readU32 buf 20 = normal_sum_slice_scalar buf (512 * 2 ^ lb) 20
          · rw [if_pos h4, if_pos ⟨h1, h2, h3, h4⟩]
          · rw [if_neg h4, if_neg (fun hc => h4 hc.2.2.2)]
        · rw [if_neg h3, if_neg (fun hc => h3 hc.2.2.1)]
      · rw [if_neg h2, if_neg (fun hc => h2 hc.2.1)]
    · rw [if_neg h1, if_neg (fun hc => h1 hc.1)]

theorem findSome_sector (dev : Device) (s : Nat) :
    ∀ lbs : List Nat,
      (lbs.map (fun lb => (s, lb))).findSome? (srcTry dev) =
        match bootTry dev s with
        | none => none
        | some fr => probeInner dev s fr.1 fr.2 lbs := by
  intro lbs
  induction lbs with
  | nil =>
    cases bootTry dev s with
    | none => rfl
    | some fr => rfl
  | cons lb rest ih =>
    rw [List.map_cons, List.findSome?_cons]
    cases hb : bootTry dev s with
    | none =>
      rw [hb] at ih
      have hsrc : srcTry dev (s, lb) = none := by
        unfold srcTry
        rw [hb]
      rw [hsrc]
      exact ih
    | some fr =>
      rw [hb] at ih
      have hsrc : srcTry dev (s, lb) = rootTry dev s fr.1 fr.2 lb := by
        unfold srcTry
        rw [hb]
      rw [hsrc]
      show _ = probeInner dev s fr.1 fr.2 (lb :: rest)
      unfold probeInner
      cases hr : rootTry dev s fr.1 fr.2 lb with
      | some r => rfl
      | none => exact ih

theorem probeOuter_eq_findSome (dev : Device) :
    ∀ sectors : List Nat,
      probeOuter dev sectors =
        (sectors.flatMap (fun s => [0, 1, 2, 3, 4].map (fun lb => (s, lb)))).findSome?
          (srcTry dev) := by
  intro sectors
  induction sectors with
  | nil => rfl
  | cons s rest ih =>
    rw [List.flatMap_cons, List.findSome?_append, findSome_sector dev s [0, 1, 2, 3, 4]]
    unfold probeOuter
    cases hb : bootTry dev s with
    | none =>
      dsimp only
      rw [ih]
      rfl
    | some fr =>
      dsimp only
      cases hp : probeInner dev s fr.1 fr.2 [0, 1, 2, 3, 4] with
      | some r => rfl
      | none =>
        dsimp only
        rw [ih, Option.none_or]

/-- Claim C8: the variable-block-size probe equals its specification form:
scanning boot sectors 0 then 1 and, per sector, block sizes 512, 1024, 2048,
4096, 8192 in order, it accepts exactly the first candidate that passes all
checks (DOS signature, FFS flag bit — a boot block with the bit clear is
rejected for every block size — boot checksum when boot code is present,
HEADER tag, ROOT secondary type at block_size - 4, nonzero hash-table-size
field, and the normal-sum checksum over the candidate-size buffer); and when
every candidate of the cross-product fails, it fails with invalidDosType. -/
theorem var_probe_first_candidate (dev : Device) :
    AffsReaderVar.probe dev = specProbe dev ∧
    ((∀ c ∈ specCandidates, specTryCandidate dev c = none) →
      AffsReaderVar.probe dev = .error .invalidDosType) := by
  have heq : AffsReaderVar.probe dev = specProbe dev := by
    unfold AffsReaderVar.probe specProbe
    have h3 : srcTry dev = specTryCandidate dev := by
      funext c
      unfold srcTry specTryCandidate
      rw [bootTry_eq_spec]
      cases specBootCandidate dev c.1 with
      | none => rfl
      | some fr =>
        dsimp only
        rw [rootTry_eq_spec]
    have h1 : probeOuter dev [0, 1] = specCandidates.findSome? (specTryCandidate dev) := by
      rw [probeOuter_eq_findSome dev [0, 1]]
      rw [show ([0, 1].flatMap (fun s => [0, 1, 2, 3, 4].map (fun lb => (s, lb)))) =
        specCandidates from rfl]
      rw [h3]
    rw [h1]
  refine ⟨heq, fun hall => ?_⟩
  rw [heq]
  unfold specProbe
  rw [List.findSome?_eq_none_iff.mpr hall]

/-- Witness for the C8 theorem: on a device where every read fails, every
candidate fails and the probe returns invalidDosType. -/
theorem var_probe_first_candidate_witness :
    AffsReaderVar.probe devC8 = .error .invalidDosType :=
  (var_probe_first_candidate devC8).2 (by decide)
